import Mathlib

/-!
Verification of the MultiClipboard command-line utility (src/main.py).

The program keeps a mapping from string keys to string values, persisted as a
JSON object in the file named by the constant SAVED_DATA, and exposes four
command handlers: save, load, list and delete.

Embedding notes.
The Python dict holding the store is embedded as an association list
`Dict := List (String × String)` with Python dict semantics: `lookup` finds
the entry for a key, assignment (`Dict.set`) updates an existing entry in
place or appends a new one, `del` (`Dict.erase`) removes the entry of the key.
External collaborators are modelled as the spec directs:
the json library is an abstract serializer/parser inverse pair, so a file
holds either `FileContent.obj d` (the serialization of dict `d`, as written
by json.dump) or `FileContent.malformed` (text that json.load rejects with
JSONDecodeError); the clipboard is a single string in the world state;
`input()` results are passed to each handler as explicit string arguments.
The world state carries the file system (a map from path to optional file
content, `none` meaning the file does not exist), the clipboard text, and a
log of every save_data call (path and dumped dict), which makes "the handler
wrote the persistence file" directly observable.
Python raising and catching of FileNotFoundError and JSONDecodeError is
embedded with `Except PyErr`: the body of load_data runs in `Except`, and
load_data itself is the try/except wrapper, total by construction.
`print(s)` emits the string `s` followed by a newline; each handler returns
the list of strings it passed to print, and `stdoutOf` renders that list to
the actual character stream.
Python str.lower agrees with String.toLower on the ASCII strings compared
against "y" in the overwrite prompt.
-/

/-- A Python dict from string keys to string values, as an association list
in insertion order with no duplicate keys in reachable states. -/
abbrev Dict := List (String × String)

/-- Entry lookup, `data[key]` / `key in data`. -/
def Dict.lookup : Dict → String → Option String
  | [], _ => none
  | (k', v') :: rest, k => if k' = k then some v' else Dict.lookup rest k

/-- `key in data`. -/
def Dict.member (d : Dict) (k : String) : Bool :=
  (Dict.lookup d k).isSome

/-- `data[key] = value`: replace the entry in place if the key is present,
otherwise append it. -/
def Dict.set : Dict → String → String → Dict
  | [], k, v => [(k, v)]
  | (k', v') :: rest, k, v =>
    if k' = k then (k, v) :: rest else (k', v') :: Dict.set rest k v

/-- `del data[key]`: remove the entry of the key (the first occurrence;
reachable dicts have no duplicate keys). -/
def Dict.erase : Dict → String → Dict
  | [], _ => []
  | (k', v') :: rest, k =>
    if k' = k then rest else (k', v') :: Dict.erase rest k

/-- Well-formedness of a reachable store: no duplicate keys. -/
def Dict.WF (d : Dict) : Prop :=
  (d.map Prod.fst).Nodup

instance (d : Dict) : Decidable (Dict.WF d) :=
  inferInstanceAs (Decidable ((d.map Prod.fst).Nodup))

/-- Content of a file on disk, through the eyes of json.load: either the
serialization of a dict, as produced by json.dump, or text that is not
valid JSON. -/
inductive FileContent where
  | obj (d : Dict)
  | malformed
deriving DecidableEq

/-- The file system: each path holds a file content or no file at all. -/
abbrev FS := String → Option FileContent

/-- The exceptions the program handles. -/
inductive PyErr where
  | fileNotFoundError
  | jsonDecodeError
deriving DecidableEq

/-- The mutable world outside the store: file system, clipboard text, and a
log of save_data calls (instrumentation making file writes observable). -/
structure World where
  fs : FS
  clip : String
  writeLog : List (String × Dict)

/-- The path of the persistence file, `SAVED_DATA = "clipboard.json"`. -/
def SAVED_DATA : String := "clipboard.json"

/-- `save_data(filepath, data)`: open the file for writing and json.dump the
dict into it, overwriting previous content. The call is recorded in the
write log. -/
def save_data (w : World) (filepath : String) (data : Dict) : World :=
  { w with
    fs := fun q => if q = filepath then some (FileContent.obj data) else w.fs q,
    writeLog := w.writeLog ++ [(filepath, data)] }

/-- `open(filepath, "r")`: the file content, or FileNotFoundError. -/
def openRead (fs : FS) (filepath : String) : Except PyErr FileContent :=
  match fs filepath with
  | none => Except.error PyErr.fileNotFoundError
  | some c => Except.ok c

/-- `json.load(f)`: the dict a serialized object denotes, or JSONDecodeError
on content that is not valid JSON. -/
def json_load : FileContent → Except PyErr Dict
  | FileContent.obj d => Except.ok d
  | FileContent.malformed => Except.error PyErr.jsonDecodeError

/-- The try block of load_data: open the file and json.load it. -/
def load_data_try (fs : FS) (filepath : String) : Except PyErr Dict :=
  match openRead fs filepath with
  | Except.ok c => json_load c
  | Except.error e => Except.error e

/-- `load_data(filepath)`: the try block with its two except clauses.
Returns the loaded dict together with the lines printed. Total: every
exception the body can raise is caught. -/
def load_data (fs : FS) (filepath : String) : Dict × List String :=
  match load_data_try fs filepath with
  | Except.ok d => (d, [])
  | Except.error PyErr.fileNotFoundError => ([], [])
  | Except.error PyErr.jsonDecodeError =>
      ([], ["Error: Invalid data format in the file."])

/-- Python str.lower, `overwrite.lower()`: lowercase every character. On the
ASCII answers compared against "y" this agrees with full Unicode lowercasing
(only the letter Y lowercases to y). Spelled out over the character list so
that it reduces definitionally. -/
def strLower (s : String) : String :=
  String.mk (s.data.map Char.toLower)

/-- The result of running one command handler: the world after it, the store
dict after it, and the list of strings printed. -/
structure CmdResult where
  world : World
  data : Dict
  out : List String

/-- The line the list command prints for one entry:
f"Key: \x7bkey\x7d\tValue: \x7bvalue\x7d". -/
def listLine (kv : String × String) : String :=
  "Key: " ++ kv.1 ++ "\t" ++ "Value: " ++ kv.2

/-- `process_list_command(data)`: print each key/value pair. -/
def process_list_command (w : World) (data : Dict) : CmdResult :=
  { world := w, data := data, out := data.map listLine }

/-- `process_save_command(data)`: read a key; reject empty; if the key
exists, ask for overwrite confirmation and cancel unless the lowercased
answer is "y"; otherwise store the clipboard text under the key and persist. -/
def process_save_command (w : World) (data : Dict) (keyInput owInput : String) :
    CmdResult :=
  if keyInput = "" then
    { world := w, data := data, out := ["Error: Key cannot be empty."] }
  else if Dict.member data keyInput ∧ strLower owInput ≠ "y" then
    { world := w, data := data, out := ["Save operation canceled."] }
  else
    let data' := Dict.set data keyInput w.clip
    { world := save_data w SAVED_DATA data',
      data := data',
      out := ["Data saved successfully."] }

/-- `process_load_command(data)`: read a key; reject empty; if present, copy
the value to the clipboard; else report that the key does not exist. -/
def process_load_command (w : World) (data : Dict) (keyInput : String) :
    CmdResult :=
  if keyInput = "" then
    { world := w, data := data, out := ["Error: Key cannot be empty."] }
  else
    match Dict.lookup data keyInput with
    | some v =>
        { world := { w with clip := v }, data := data,
          out := ["Data has been copied to clipboard."] }
    | none =>
        { world := w, data := data, out := ["Key does not exist."] }

/-- `process_delete_command(data)`: read a key; reject empty; if present,
delete the entry and persist; else report that the key does not exist. -/
def process_delete_command (w : World) (data : Dict) (keyInput : String) :
    CmdResult :=
  if keyInput = "" then
    { world := w, data := data, out := ["Error: Key cannot be empty."] }
  else if Dict.member data keyInput then
    let data' := Dict.erase data keyInput
    { world := save_data w SAVED_DATA data',
      data := data',
      out := ["Entry deleted successfully."] }
  else
    { world := w, data := data, out := ["Key does not exist."] }

/-- The character stream `print` produces from a list of printed strings:
each string followed by a newline. -/
def stdoutOf : List String → String
  | [] => ""
  | s :: rest => s ++ "\n" ++ stdoutOf rest

/-- The number of lines in the rendered output. Every printed chunk ends in
a newline, so the line count is the number of newline characters. -/
def lineCountOf (out : List String) : Nat :=
  (stdoutOf out).data.count '\n'

/-- Looking up the key just assigned finds the assigned value. -/
theorem Dict.lookup_set_self (d : Dict) (k v : String) :
    Dict.lookup (Dict.set d k v) k = some v := by
  induction d with
  | nil => simp [Dict.set, Dict.lookup]
  | cons kv rest ih =>
    obtain ⟨k1, v1⟩ := kv
    by_cases h : k1 = k
    · simp [Dict.set, Dict.lookup, h]
    · simp [Dict.set, Dict.lookup, h, ih]

/-- Assignment leaves the value of every other key unchanged. -/
theorem Dict.lookup_set_ne (d : Dict) (k v k2 : String) (h : k2 ≠ k) :
    Dict.lookup (Dict.set d k v) k2 = Dict.lookup d k2 := by
  induction d with
  | nil => simp [Dict.set, Dict.lookup, Ne.symm h]
  | cons kv rest ih =>
    obtain ⟨k1, v1⟩ := kv
    by_cases h1 : k1 = k
    · subst h1
      simp [Dict.set, Dict.lookup, Ne.symm h]
    · simp [Dict.set, Dict.lookup, h1, ih]

/-- Deletion leaves the value of every other key unchanged. -/
theorem Dict.lookup_erase_ne (d : Dict) (k k2 : String) (h : k2 ≠ k) :
    Dict.lookup (Dict.erase d k) k2 = Dict.lookup d k2 := by
  induction d with
  | nil => simp [Dict.erase]
  | cons kv rest ih =>
    obtain ⟨k1, v1⟩ := kv
    by_cases h1 : k1 = k
    · subst h1
      simp [Dict.erase, Dict.lookup, Ne.symm h]
    · simp [Dict.erase, Dict.lookup, h1, ih]

/-- A key that is not among the keys of the list has no entry. -/
theorem Dict.lookup_eq_none_of_not_mem (d : Dict) (k : String)
    (h : k ∉ d.map Prod.fst) : Dict.lookup d k = none := by
  induction d with
  | nil => simp [Dict.lookup]
  | cons kv rest ih =>
    obtain ⟨k1, v1⟩ := kv
    simp only [List.map_cons, List.mem_cons] at h
    push_neg at h
    simp [Dict.lookup, Ne.symm h.1, ih h.2]

/-- On a store with no duplicate keys, deleting a key removes its entry. -/
theorem Dict.lookup_erase_self (d : Dict) (k : String) (hwf : Dict.WF d) :
    Dict.lookup (Dict.erase d k) k = none := by
  induction d with
  | nil => simp [Dict.erase, Dict.lookup]
  | cons kv rest ih =>
    obtain ⟨k1, v1⟩ := kv
    simp only [Dict.WF, List.map_cons, List.nodup_cons] at hwf
    by_cases h1 : k1 = k
    · subst h1
      simp [Dict.erase]
      exact Dict.lookup_eq_none_of_not_mem rest k1 hwf.1
    · simp [Dict.erase, Dict.lookup, h1, ih hwf.2]

/-- Deleting a present key shortens the list by exactly one entry. -/
theorem Dict.length_erase_of_member (d : Dict) (k : String)
    (h : Dict.member d k = true) : (Dict.erase d k).length + 1 = d.length := by
  induction d with
  | nil => simp [Dict.member, Dict.lookup] at h
  | cons kv rest ih =>
    obtain ⟨k1, v1⟩ := kv
    by_cases h1 : k1 = k
    · simp [Dict.erase, h1]
    · simp only [Dict.member, Dict.lookup, h1, if_false] at h
      simp [Dict.erase, h1, ih h]

/-- Deleting a present key changes the store. -/
theorem Dict.erase_ne_of_member (d : Dict) (k : String)
    (h : Dict.member d k = true) : Dict.erase d k ≠ d := by
  intro he
  have hl := Dict.length_erase_of_member d k h
  rw [he] at hl
  omega

/-- C1: saving any mapping to a file with save_data and reading that file
back with load_data returns a mapping equal to the original, with no error
output. -/
theorem save_load_round_trip (w : World) (d : Dict) (p : String) :
    load_data (save_data w p d).fs p = (d, []) := by
  simp [load_data, load_data_try, save_data, openRead, json_load]

/-- C2: load_data returns the empty mapping silently when the file is
missing, and returns the empty mapping with a printed error message when the
file content is not valid JSON; it is a total function, so it never raises. -/
theorem load_data_missing_or_corrupt (fs : FS) (p : String) :
    (fs p = none → load_data fs p = ([], [])) ∧
    (fs p = some FileContent.malformed →
      load_data fs p = ([], ["Error: Invalid data format in the file."])) := by
  constructor
  · intro h
    simp [load_data, load_data_try, openRead, h]
  · intro h
    simp [load_data, load_data_try, openRead, h, json_load]

/-- Witness for C2 at concrete file systems. -/
theorem load_data_missing_or_corrupt_witness :
    load_data (fun _ => none) "clipboard.json" = ([], []) ∧
    load_data (fun _ => some FileContent.malformed) "clipboard.json" =
      ([], ["Error: Invalid data format in the file."]) :=
  ⟨(load_data_missing_or_corrupt (fun _ => none) "clipboard.json").1 rfl,
   (load_data_missing_or_corrupt (fun _ => some FileContent.malformed)
      "clipboard.json").2 rfl⟩

/-- C3: the save command on an empty key input leaves the store unchanged,
leaves the world untouched (nothing written, clipboard kept), and prints the
error message. -/
theorem process_save_command_empty_key (w : World) (d : Dict) (ow : String) :
    process_save_command w d "" ow =
      { world := w, data := d, out := ["Error: Key cannot be empty."] } := by
  simp [process_save_command]

/-- C4: the save command on a key already present, with a response that does
not confirm the overwrite, leaves the store unchanged and leaves the world
untouched (nothing persisted). -/
theorem process_save_command_no_confirm (w : World) (d : Dict) (k ow : String)
    (hm : Dict.member d k = true) (how : strLower ow ≠ "y") :
    (process_save_command w d k ow).data = d ∧
    (process_save_command w d k ow).world = w := by
  by_cases hk : k = ""
  · subst hk
    simp [process_save_command]
  · simp [process_save_command, hk, hm, how]

/-- Witness for C4 at a concrete store, key "k" present, answer "n". -/
theorem process_save_command_no_confirm_witness :
    Dict.member [("k", "v")] "k" = true ∧ strLower "n" ≠ "y" ∧
    ((process_save_command
        { fs := fun _ => none, clip := "c", writeLog := [] }
        [("k", "v")] "k" "n").data = [("k", "v")] ∧
      (process_save_command
        { fs := fun _ => none, clip := "c", writeLog := [] }
        [("k", "v")] "k" "n").world =
        { fs := fun _ => none, clip := "c", writeLog := [] }) :=
  ⟨by decide, by decide,
    process_save_command_no_confirm
      { fs := fun _ => none, clip := "c", writeLog := [] }
      [("k", "v")] "k" "n" (by decide) (by decide)⟩

/-- C5: when the save command proceeds (non-empty key, and the overwrite
confirmed whenever the key is already present), the resulting store maps the
key to the clipboard text, every other key keeps its value, and the
persistence file now holds the serialization of the resulting store. -/
theorem process_save_command_proceeds (w : World) (d : Dict) (k ow : String)
    (hk : k ≠ "") (hok : Dict.member d k = true → strLower ow = "y") :
    Dict.lookup (process_save_command w d k ow).data k = some w.clip ∧
    (∀ k2, k2 ≠ k →
      Dict.lookup (process_save_command w d k ow).data k2 = Dict.lookup d k2) ∧
    (process_save_command w d k ow).world.fs SAVED_DATA =
      some (FileContent.obj ((process_save_command w d k ow).data)) := by
  have hcond : ¬(Dict.member d k = true ∧ strLower ow ≠ "y") := by
    rintro ⟨h1, h2⟩
    exact h2 (hok h1)
  refine ⟨?_, fun k2 h2 => ?_, ?_⟩
  · simp [process_save_command, hk, hcond, Dict.lookup_set_self]
  · simp [process_save_command, hk, hcond, Dict.lookup_set_ne d k w.clip k2 h2]
  · simp [process_save_command, hk, hcond, save_data]

/-- Witness for C5: fresh key "k" saved into the empty store with clipboard
text "c"; the entry appears, another key is unaffected, the file is written. -/
theorem process_save_command_proceeds_witness :
    ("k" ≠ "") ∧ (Dict.member [] "k" = true → strLower "" = "y") ∧
    Dict.lookup (process_save_command
        { fs := fun _ => none, clip := "c", writeLog := [] }
        [] "k" "").data "k" = some "c" ∧
    Dict.lookup (process_save_command
        { fs := fun _ => none, clip := "c", writeLog := [] }
        [] "k" "").data "other" = Dict.lookup [] "other" ∧
    (process_save_command
        { fs := fun _ => none, clip := "c", writeLog := [] }
        [] "k" "").world.fs SAVED_DATA =
      some (FileContent.obj ((process_save_command
        { fs := fun _ => none, clip := "c", writeLog := [] }
        [] "k" "").data)) :=
  ⟨by decide, by decide,
    (process_save_command_proceeds
      { fs := fun _ => none, clip := "c", writeLog := [] }
      [] "k" "" (by decide) (by decide)).1,
    (process_save_command_proceeds
      { fs := fun _ => none, clip := "c", writeLog := [] }
      [] "k" "" (by decide) (by decide)).2.1 "other" (by decide),
    (process_save_command_proceeds
      { fs := fun _ => none, clip := "c", writeLog := [] }
      [] "k" "" (by decide) (by decide)).2.2⟩

/-- C6: for a non-empty key, the load command copies the stored value to the
clipboard when the key is present, and prints that the key does not exist,
leaving the clipboard untouched, when it is absent; the store mapping and the
file system are unchanged in both cases. -/
theorem process_load_command_spec (w : World) (d : Dict) (k : String)
    (hk : k ≠ "") :
    (∀ v, Dict.lookup d k = some v →
      process_load_command w d k =
        { world := { w with clip := v }, data := d,
          out := ["Data has been copied to clipboard."] }) ∧
    (Dict.lookup d k = none →
      process_load_command w d k =
        { world := w, data := d, out := ["Key does not exist."] }) := by
  constructor
  · intro v hv
    simp [process_load_command, hk, hv]
  · intro hv
    simp [process_load_command, hk, hv]

/-- Witness for C6: both load branches at a concrete store. -/
theorem process_load_command_spec_witness :
    ("k" ≠ "") ∧ Dict.lookup [("k", "v")] "k" = some "v" ∧
    process_load_command
        { fs := fun _ => none, clip := "c", writeLog := [] }
        [("k", "v")] "k" =
      { world := { fs := fun _ => none, clip := "v", writeLog := [] },
        data := [("k", "v")],
        out := ["Data has been copied to clipboard."] } ∧
    Dict.lookup [("k", "v")] "x" = none ∧
    process_load_command
        { fs := fun _ => none, clip := "c", writeLog := [] }
        [("k", "v")] "x" =
      { world := { fs := fun _ => none, clip := "c", writeLog := [] },
        data := [("k", "v")], out := ["Key does not exist."] } :=
  ⟨by decide, by decide,
    (process_load_command_spec
      { fs := fun _ => none, clip := "c", writeLog := [] }
      [("k", "v")] "k" (by decide)).1 "v" (by decide),
   by decide,
    (process_load_command_spec
      { fs := fun _ => none, clip := "c", writeLog := [] }
      [("k", "v")] "x" (by decide)).2 (by decide)⟩

/-- C7: for a non-empty key on a well-formed store, the delete command
removes exactly that key and persists the resulting store when the key is
present, and leaves everything unchanged while reporting absence when it is
not. -/
theorem process_delete_command_spec (w : World) (d : Dict) (k : String)
    (hk : k ≠ "") (hwf : Dict.WF d) :
    (Dict.member d k = true →
      Dict.lookup (process_delete_command w d k).data k = none ∧
      (∀ k2, k2 ≠ k →
        Dict.lookup (process_delete_command w d k).data k2 = Dict.lookup d k2) ∧
      (process_delete_command w d k).world.fs SAVED_DATA =
        some (FileContent.obj ((process_delete_command w d k).data))) ∧
    (Dict.member d k = false →
      process_delete_command w d k =
        { world := w, data := d, out := ["Key does not exist."] }) := by
  constructor
  · intro hm
    refine ⟨?_, fun k2 h2 => ?_, ?_⟩
    · simp [process_delete_command, hk, hm, Dict.lookup_erase_self d k hwf]
    · simp [process_delete_command, hk, hm, Dict.lookup_erase_ne d k k2 h2]
    · simp [process_delete_command, hk, hm, save_data]
  · intro hm
    simp [process_delete_command, hk, hm]

/-- Witness for C7: both delete branches at a concrete well-formed store. -/
theorem process_delete_command_spec_witness :
    ("k" ≠ "") ∧ Dict.WF [("k", "v")] ∧ Dict.member [("k", "v")] "k" = true ∧
    Dict.lookup (process_delete_command
        { fs := fun _ => none, clip := "c", writeLog := [] }
        [("k", "v")] "k").data "k" = none ∧
    Dict.lookup (process_delete_command
        { fs := fun _ => none, clip := "c", writeLog := [] }
        [("k", "v")] "k").data "x" = Dict.lookup [("k", "v")] "x" ∧
    (process_delete_command
        { fs := fun _ => none, clip := "c", writeLog := [] }
        [("k", "v")] "k").world.fs SAVED_DATA =
      some (FileContent.obj ((process_delete_command
        { fs := fun _ => none, clip := "c", writeLog := [] }
        [("k", "v")] "k").data)) ∧
    Dict.member [("k", "v")] "x" = false ∧
    process_delete_command
        { fs := fun _ => none, clip := "c", writeLog := [] }
        [("k", "v")] "x" =
      { world := { fs := fun _ => none, clip := "c", writeLog := [] },
        data := [("k", "v")], out := ["Key does not exist."] } :=
  ⟨by decide, by decide, by decide,
    ((process_delete_command_spec
      { fs := fun _ => none, clip := "c", writeLog := [] }
      [("k", "v")] "k" (by decide) (by decide)).1 (by decide)).1,
    ((process_delete_command_spec
      { fs := fun _ => none, clip := "c", writeLog := [] }
      [("k", "v")] "k" (by decide) (by decide)).1 (by decide)).2.1 "x" (by decide),
    ((process_delete_command_spec
      { fs := fun _ => none, clip := "c", writeLog := [] }
      [("k", "v")] "k" (by decide) (by decide)).1 (by decide)).2.2,
   by decide,
    (process_delete_command_spec
      { fs := fun _ => none, clip := "c", writeLog := [] }
      [("k", "v")] "x" (by decide) (by decide)).2 (by decide)⟩

/-- C9: with a non-empty key already present in the store, the save command
proceeds (and then stores the clipboard text and persists) exactly when the
lowercased overwrite answer is the single character "y"; any other answer
cancels the save and leaves store and world unchanged. -/
theorem process_save_command_confirm_iff (w : World) (d : Dict) (k ow : String)
    (hk : k ≠ "") (hm : Dict.member d k = true) :
    ((process_save_command w d k ow).out = ["Data saved successfully."] ∧
     (process_save_command w d k ow).data = Dict.set d k w.clip ∧
     (process_save_command w d k ow).world =
       save_data w SAVED_DATA (Dict.set d k w.clip))
    ↔ strLower ow = "y" := by
  by_cases hy : strLower ow = "y"
  · simp [process_save_command, hk, hm, hy]
  · simp [process_save_command, hk, hm, hy]

/-- Witness for C9: the answer "Y" confirms the overwrite. -/
theorem process_save_command_confirm_iff_witness :
    ("k" ≠ "") ∧ Dict.member [("k", "v")] "k" = true ∧ strLower "Y" = "y" ∧
    ((process_save_command
        { fs := fun _ => none, clip := "c", writeLog := [] }
        [("k", "v")] "k" "Y").out = ["Data saved successfully."] ∧
     (process_save_command
        { fs := fun _ => none, clip := "c", writeLog := [] }
        [("k", "v")] "k" "Y").data = Dict.set [("k", "v")] "k" "c" ∧
     (process_save_command
        { fs := fun _ => none, clip := "c", writeLog := [] }
        [("k", "v")] "k" "Y").world =
       save_data { fs := fun _ => none, clip := "c", writeLog := [] }
         SAVED_DATA (Dict.set [("k", "v")] "k" "c")) :=
  ⟨by decide, by decide, by decide,
    (process_save_command_confirm_iff
      { fs := fun _ => none, clip := "c", writeLog := [] }
      [("k", "v")] "k" "Y" (by decide) (by decide)).mpr (by decide)⟩

/-- The characters of an appended string are the appended character lists. -/
theorem string_data_append (s t : String) : (s ++ t).data = s.data ++ t.data := by
  cases s
  cases t
  rfl

/-- A printed entry whose key and value hold no newline renders newline-free. -/
theorem listLine_count_no_newline (kv : String × String)
    (h1 : '\n' ∉ kv.1.data) (h2 : '\n' ∉ kv.2.data) :
    (listLine kv).data.count '\n' = 0 := by
  obtain ⟨k, v⟩ := kv
  simp only [listLine, string_data_append, List.count_append]
  rw [List.count_eq_zero.mpr h1, List.count_eq_zero.mpr h2]
  decide

/-- Rendering one newline-free printed string per entry yields one output
line per entry. -/
theorem lineCount_map_listLine (d : Dict)
    (h : ∀ kv ∈ d, '\n' ∉ kv.1.data ∧ '\n' ∉ kv.2.data) :
    lineCountOf (d.map listLine) = d.length := by
  induction d with
  | nil => rfl
  | cons kv rest ih =>
    have hkv := h kv (List.mem_cons_self kv rest)
    have hline := listLine_count_no_newline kv hkv.1 hkv.2
    have ihr := ih (fun x hx => h x (List.mem_cons_of_mem kv hx))
    have hn : ("\n" : String).data.count '\n' = 1 := by decide
    simp only [lineCountOf, List.map_cons, stdoutOf, string_data_append,
      List.count_append, List.length_cons] at ihr ⊢
    rw [hline, hn, ihr]
    omega

/-- C8 (amended): the list command prints exactly one string per stored key,
and the printed string of an entry displays that key and its value; when no
stored key or value contains a newline character, the rendered output
therefore has exactly one line per stored key. A value holding a newline
makes its entry span several output lines. -/
theorem process_list_command_output (w : World) (d : Dict) :
    (process_list_command w d).out = d.map listLine ∧
    ((∀ kv ∈ d, '\n' ∉ kv.1.data ∧ '\n' ∉ kv.2.data) →
      lineCountOf ((process_list_command w d).out) = d.length) :=
  ⟨rfl, fun h => lineCount_map_listLine d h⟩

/-- Witness for C8 at a two-entry newline-free store. -/
theorem process_list_command_output_witness :
    (∀ kv ∈ ([("a", "1"), ("b", "2")] : Dict),
      '\n' ∉ kv.1.data ∧ '\n' ∉ kv.2.data) ∧
    (process_list_command
      { fs := fun _ => none, clip := "", writeLog := [] }
      [("a", "1"), ("b", "2")]).out =
        ["Key: a\tValue: 1", "Key: b\tValue: 2"] ∧
    lineCountOf ((process_list_command
      { fs := fun _ => none, clip := "", writeLog := [] }
      [("a", "1"), ("b", "2")]).out) = 2 :=
  ⟨by decide,
    (process_list_command_output
      { fs := fun _ => none, clip := "", writeLog := [] }
      [("a", "1"), ("b", "2")]).1,
    (process_list_command_output
      { fs := fun _ => none, clip := "", writeLog := [] }
      [("a", "1"), ("b", "2")]).2 (by decide)⟩

/-- C8 refuted as stated: one stored key whose value contains a newline
renders as two output lines, not one line for that one key. -/
theorem process_list_command_line_cex :
    lineCountOf ((process_list_command
      { fs := fun _ => none, clip := "", writeLog := [] }
      [("k", "a\nb")]).out) = 2 ∧
    ([("k", "a\nb")] : Dict).length = 1 := by
  constructor
  · decide
  · decide

/-- Appending one element never returns the original list. -/
theorem append_singleton_ne {α : Type} (l : List α) (x : α) : l ++ [x] ≠ l := by
  intro h
  have hl := congrArg List.length h
  simp at hl

/-- C10 (amended): the load and list commands never mutate the store mapping
and never call save_data (the write log is untouched; list leaves the whole
world untouched). The save command calls save_data exactly when it proceeds
(non-empty key, and confirmed overwrite whenever the key is present); a
proceeding save that changes the mapping always writes, but a proceeding
save can also write while leaving the mapping unchanged, when the clipboard
text equals the value already stored. The delete command calls save_data
exactly when it changes the mapping. -/
theorem command_frame_effects (w : World) (d : Dict) (k ow : String) :
    (process_list_command w d).world = w ∧
    (process_list_command w d).data = d ∧
    (process_load_command w d k).world.fs = w.fs ∧
    (process_load_command w d k).world.writeLog = w.writeLog ∧
    (process_load_command w d k).data = d ∧
    ((process_delete_command w d k).world.writeLog ≠ w.writeLog ↔
      (process_delete_command w d k).data ≠ d) ∧
    ((process_save_command w d k ow).data ≠ d →
      (process_save_command w d k ow).world.writeLog ≠ w.writeLog) ∧
    ((process_save_command w d k ow).world.writeLog ≠ w.writeLog ↔
      (k ≠ "" ∧ (Dict.member d k = true → strLower ow = "y"))) := by
  refine ⟨rfl, rfl, ?_, ?_, ?_, ?_, ?_, ?_⟩
  · by_cases hk : k = ""
    · simp [process_load_command, hk]
    · cases hv : Dict.lookup d k with
      | some v => simp [process_load_command, hk, hv]
      | none => simp [process_load_command, hk, hv]
  · by_cases hk : k = ""
    · simp [process_load_command, hk]
    · cases hv : Dict.lookup d k with
      | some v => simp [process_load_command, hk, hv]
      | none => simp [process_load_command, hk, hv]
  · by_cases hk : k = ""
    · simp [process_load_command, hk]
    · cases hv : Dict.lookup d k with
      | some v => simp [process_load_command, hk, hv]
      | none => simp [process_load_command, hk, hv]
  · by_cases hk : k = ""
    · simp [process_delete_command, hk]
    · cases hm : Dict.member d k with
      | true =>
        simp only [process_delete_command, hk, hm, if_neg hk, if_true]
        simp [save_data, append_singleton_ne, Dict.erase_ne_of_member d k hm]
      | false => simp [process_delete_command, hk, hm]
  · by_cases hk : k = ""
    · intro hd
      simp [process_save_command, hk] at hd
    · by_cases hc : Dict.member d k = true ∧ strLower ow ≠ "y"
      · intro hd
        simp [process_save_command, hk, hc] at hd
      · intro _
        simp [process_save_command, hk, hc, save_data, append_singleton_ne]
  · by_cases hk : k = ""
    · simp [process_save_command, hk]
    · by_cases hc : Dict.member d k = true ∧ strLower ow ≠ "y"
      · obtain ⟨hm, hy⟩ := hc
        simp [process_save_command, hk, hm, hy]
      · have himp : Dict.member d k = true → strLower ow = "y" := by
          intro hm
          by_contra hy
          exact hc ⟨hm, hy⟩
        simp [process_save_command, hk, hc, save_data, append_singleton_ne]
        exact himp

/-- Witness for C10: at a concrete store, the list command leaves the world
untouched, and a delete that changes the mapping writes the file. -/
theorem command_frame_effects_witness :
    (process_list_command
      { fs := fun _ => none, clip := "c", writeLog := [] }
      [("k", "v")]).world =
        { fs := fun _ => none, clip := "c", writeLog := [] } ∧
    (process_delete_command
      { fs := fun _ => none, clip := "c", writeLog := [] }
      [("k", "v")] "k").world.writeLog ≠
        World.writeLog { fs := fun _ => none, clip := "c", writeLog := [] } :=
  ⟨(command_frame_effects
      { fs := fun _ => none, clip := "c", writeLog := [] }
      [("k", "v")] "k" "y").1,
   (command_frame_effects
      { fs := fun _ => none, clip := "c", writeLog := [] }
      [("k", "v")] "k" "y").2.2.2.2.2.1.mpr (by decide)⟩

/-- C10 refuted as stated: when the clipboard text equals the value already
stored under the key, a confirmed save calls save_data (the write log grows
by one entry) even though the resulting mapping equals the original, so save
does not call save_data only when it changes the mapping. -/
theorem save_writes_without_change_cex :
    (process_save_command
      { fs := fun _ => none, clip := "v", writeLog := [] }
      [("k", "v")] "k" "y").data = [("k", "v")] ∧
    (process_save_command
      { fs := fun _ => none, clip := "v", writeLog := [] }
      [("k", "v")] "k" "y").world.writeLog =
        [(SAVED_DATA, [("k", "v")])] := by
  constructor
  · decide
  · decide
